import Mathlib

/-!
Verification of the Gemini Multimodal Live message model and parser
(`src/pipecat/services/gemini_multimodal_live/events.py`).

The Python module defines pydantic models for client and server events and a
single fallible decode entry point `parse_server_event`.  We shallowly embed
the data model and the decode path:

* JSON values are modelled by the inductive `Json`; `parseJson` models the
  behaviour of `json.loads` on the fragment of JSON the protocol exercises
  (objects, arrays, strings with escapes, integer numbers, booleans, null).
  Non-integer number literals (fractions/exponents) are outside the fragment
  the claims exercise and are treated as a parse failure; the parser stays
  total either way.
* Each pydantic model becomes a Lean structure together with a validator
  `vXxx : Json → Option Xxx` mirroring pydantic field-by-field validation:
  required fields must be present with the right shape, `Optional` fields
  accept absence or JSON null as `none`, fields with defaults fill in the
  default when absent, and unknown keys are ignored (pydantic's default
  `extra="ignore"` behaviour).  Python `float` fields are modelled at integer
  precision, which is the fragment the claims exercise.
* `base64.b64encode` is modelled by `b64encode` over byte lists, together
  with a decoder `b64decode` used to state the round-trip property.
-/

namespace GeminiLive

/-- Generic JSON tree, the result of `json.loads`.  Object fields keep their
textual order; lookups take the last binding for a key, matching Python dict
construction where a later duplicate key overwrites an earlier one. -/
inductive Json where
  | null
  | bool (b : Bool)
  | num (n : Int)
  | str (s : String)
  | arr (elems : List Json)
  | obj (fields : List (String × Json))

/-- Last-binding-wins field lookup, the dict semantics of `json.loads`. -/
def Json.getField (fs : List (String × Json)) (k : String) : Option Json :=
  fs.foldl (fun acc p => if p.1 = k then some p.2 else acc) none

/-- The four whitespace characters `json.loads` skips. -/
def isJsonWs (c : Char) : Bool :=
  c = ' ' || c = '\t' || c = '\n' || c = '\r'

/-- Drop leading JSON whitespace. -/
def skipWs : List Char → List Char
  | [] => []
  | c :: cs => if isJsonWs c then skipWs cs else c :: cs

/-- Opening curly bracket. -/
def lbrace : Char := Char.ofNat 123

/-- Closing curly bracket. -/
def rbrace : Char := Char.ofNat 125

/-- Value of a hexadecimal digit. -/
def hexVal (c : Char) : Option Nat :=
  if '0' ≤ c ∧ c ≤ '9' then some (c.toNat - 48)
  else if 'a' ≤ c ∧ c ≤ 'f' then some (c.toNat - 87)
  else if 'A' ≤ c ∧ c ≤ 'F' then some (c.toNat - 55)
  else none

/-- Body of a JSON string after the opening quote: returns the decoded
characters and the input remaining after the closing quote.  Handles the
standard escapes and `\uXXXX`; raw control characters are rejected as in
Python's strict mode. -/
def parseJStringChars : List Char → Option (List Char × List Char)
  | [] => none
  | c :: cs =>
    if c = '"' then some ([], cs)
    else if c = '\\' then
      match cs with
      | [] => none
      | e :: cs2 =>
        if e = '"' ∨ e = '\\' ∨ e = '/' then
          (parseJStringChars cs2).map (fun p => (e :: p.1, p.2))
        else if e = 'b' then
          (parseJStringChars cs2).map (fun p => (Char.ofNat 8 :: p.1, p.2))
        else if e = 'f' then
          (parseJStringChars cs2).map (fun p => (Char.ofNat 12 :: p.1, p.2))
        else if e = 'n' then
          (parseJStringChars cs2).map (fun p => ('\n' :: p.1, p.2))
        else if e = 'r' then
          (parseJStringChars cs2).map (fun p => ('\r' :: p.1, p.2))
        else if e = 't' then
          (parseJStringChars cs2).map (fun p => ('\t' :: p.1, p.2))
        else if e = 'u' then
          match cs2 with
          | h1 :: h2 :: h3 :: h4 :: cs3 =>
            match hexVal h1, hexVal h2, hexVal h3, hexVal h4 with
            | some a, some b, some c3, some d =>
              (parseJStringChars cs3).map
                (fun p => (Char.ofNat (a * 4096 + b * 256 + c3 * 16 + d) :: p.1, p.2))
            | _, _, _, _ => none
          | _ => none
        else none
    else if c.toNat < 32 then none
    else (parseJStringChars cs).map (fun p => (c :: p.1, p.2))

/-- Split a maximal run of decimal digits off the front of the input. -/
def takeDigits : List Char → List Char × List Char
  | [] => ([], [])
  | c :: cs =>
    if '0' ≤ c ∧ c ≤ '9' then
      let p := takeDigits cs
      (c :: p.1, p.2)
    else ([], c :: cs)

/-- Numeric value of a digit run. -/
def digitsVal (ds : List Char) : Nat :=
  ds.foldl (fun acc c => acc * 10 + (c.toNat - 48)) 0

/-- Parse a JSON integer literal (optional minus, digits, no leading zeros).
A following fraction or exponent marker is outside the modelled fragment and
yields a parse failure. -/
def parseJNum (cs : List Char) : Option (Int × List Char) :=
  let p := match cs with
    | c :: r => if c = '-' then (true, r) else (false, cs)
    | [] => (false, cs)
  let q := takeDigits p.2
  if q.1 = [] then none
  else if 1 < q.1.length ∧ q.1.head? = some '0' then none
  else
    match q.2 with
    | c :: _ =>
      if c = '.' ∨ c = 'e' ∨ c = 'E' then none
      else some (if p.1 then -(digitsVal q.1 : Int) else (digitsVal q.1 : Int), q.2)
    | [] => some (if p.1 then -(digitsVal q.1 : Int) else (digitsVal q.1 : Int), q.2)

mutual

/-- Fuel-indexed JSON value parser: returns the value and the remaining
input.  Fuel strictly decreases on every recursive call, so one unit of fuel
per input character is always enough (see `parseJson`). -/
def parseJValue : Nat → List Char → Option (Json × List Char)
  | 0, _ => none
  | fuel + 1, cs =>
    match skipWs cs with
    | [] => none
    | c :: rest =>
      if c = lbrace then
        match skipWs rest with
        | d :: rest2 =>
          if d = rbrace then some (Json.obj [], rest2)
          else (parseJMembers fuel (d :: rest2)).map (fun p => (Json.obj p.1, p.2))
        | [] => none
      else if c = '[' then
        match skipWs rest with
        | ']' :: rest2 => some (Json.arr [], rest2)
        | rest2 => (parseJElems fuel rest2).map (fun p => (Json.arr p.1, p.2))
      else if c = '"' then
        (parseJStringChars rest).map (fun p => (Json.str (String.mk p.1), p.2))
      else
        match c :: rest with
        | 't' :: 'r' :: 'u' :: 'e' :: rest2 => some (Json.bool true, rest2)
        | 'f' :: 'a' :: 'l' :: 's' :: 'e' :: rest2 => some (Json.bool false, rest2)
        | 'n' :: 'u' :: 'l' :: 'l' :: rest2 => some (Json.null, rest2)
        | cs2 => (parseJNum cs2).map (fun p => (Json.num p.1, p.2))

/-- Parse the members of a JSON object after the opening bracket, given that
the object is nonempty.  Consumes through the closing bracket. -/
def parseJMembers : Nat → List Char → Option (List (String × Json) × List Char)
  | 0, _ => none
  | fuel + 1, cs =>
    match skipWs cs with
    | '"' :: rest =>
      match parseJStringChars rest with
      | none => none
      | some (keyChars, rest2) =>
        match skipWs rest2 with
        | ':' :: rest3 =>
          match parseJValue fuel rest3 with
          | none => none
          | some (v, rest4) =>
            match skipWs rest4 with
            | ',' :: rest5 =>
              (parseJMembers fuel rest5).map
                (fun p => ((String.mk keyChars, v) :: p.1, p.2))
            | d :: rest5 =>
              if d = rbrace then some ([(String.mk keyChars, v)], rest5) else none
            | [] => none
        | _ => none
    | _ => none

/-- Parse the elements of a nonempty JSON array, consuming the closing
square bracket. -/
def parseJElems : Nat → List Char → Option (List Json × List Char)
  | 0, _ => none
  | fuel + 1, cs =>
    match parseJValue fuel cs with
    | none => none
    | some (v, rest) =>
      match skipWs rest with
      | ',' :: rest2 => (parseJElems fuel rest2).map (fun p => (v :: p.1, p.2))
      | ']' :: rest2 => some ([v], rest2)
      | _ => none

end

/-- Model of `json.loads`: parse one complete JSON document, requiring the
whole input to be consumed up to trailing whitespace.  Total: any malformed
input yields `none`. -/
def parseJson (s : String) : Option Json :=
  match parseJValue (s.data.length + 1) s.data with
  | some (j, rest) => if skipWs rest = [] then some j else none
  | none => none

/-! ### Base64

Model of `base64.b64encode(raw).decode("utf-8")` over byte lists (each
entry a `Nat` below 256), together with the standard decoder used to state
the round-trip property. -/

/-- The RFC 4648 standard alphabet. -/
def b64Alphabet : List Char :=
  "ABCDEFGHIJKLMNOPQRSTUVWXYZabcdefghijklmnopqrstuvwxyz0123456789+/".data

/-- Character encoding a six-bit group. -/
def b64Digit (n : Nat) : Char :=
  b64Alphabet.getD n 'A'

/-- Numeric value of a base64 alphabet character. -/
def b64DigitVal (c : Char) : Option Nat :=
  if 'A' ≤ c ∧ c ≤ 'Z' then some (c.toNat - 65)
  else if 'a' ≤ c ∧ c ≤ 'z' then some (c.toNat - 71)
  else if '0' ≤ c ∧ c ≤ '9' then some (c.toNat + 4)
  else if c = '+' then some 62
  else if c = '/' then some 63
  else none

/-- Standard base64 encoding of a byte list, three bytes to four characters
with `=` padding, as performed by `base64.b64encode`. -/
def b64encodeList : List Nat → List Char
  | [] => []
  | [a] => [b64Digit (a / 4), b64Digit (a % 4 * 16), '=', '=']
  | [a, b] => [b64Digit (a / 4), b64Digit (a % 4 * 16 + b / 16), b64Digit (b % 16 * 4), '=']
  | a :: b :: c :: rest =>
    b64Digit (a / 4) :: b64Digit (a % 4 * 16 + b / 16) ::
      b64Digit (b % 16 * 4 + c / 64) :: b64Digit (c % 64) :: b64encodeList rest

/-- Standard base64 decoding, the inverse of `b64encodeList`: four
characters to three bytes, a final `=` or `==` marking a short last
group. -/
def b64decodeList : List Char → Option (List Nat)
  | [] => some []
  | c1 :: c2 :: c3 :: c4 :: rest =>
    match b64DigitVal c1, b64DigitVal c2 with
    | some s1, some s2 =>
      if c3 = '=' then
        if c4 = '=' ∧ rest = [] then some [s1 * 4 + s2 / 16] else none
      else
        match b64DigitVal c3 with
        | some s3 =>
          if c4 = '=' then
            if rest = [] then some [s1 * 4 + s2 / 16, s2 % 16 * 16 + s3 / 4]
            else none
          else
            match b64DigitVal c4, b64decodeList rest with
            | some s4, some tl =>
              some ((s1 * 4 + s2 / 16) :: (s2 % 16 * 16 + s3 / 4) ::
                (s3 % 4 * 64 + s4) :: tl)
            | _, _ => none
        | none => none
    | _, _ => none
  | _ => none

/-- String-level base64 encoding, model of
`base64.b64encode(raw_audio).decode("utf-8")`. -/
def b64encode (raw : List Nat) : String :=
  String.mk (b64encodeList raw)

/-- String-level base64 decoding. -/
def b64decode (s : String) : Option (List Nat) :=
  b64decodeList s.data

/-! ### Data model

One Lean structure per pydantic model, keeping the source field names.
`Optional[T] = None` fields become `Option T`; fields with a non-`None`
default record the default in the structure declaration. -/

/-- Model of `MediaChunk`. -/
structure MediaChunk where
  mimeType : String
  data : String
deriving DecidableEq

/-- Model of `FileData`, a file reference in the Gemini File API. -/
structure FileData where
  mimeType : String
  fileUri : String
deriving DecidableEq

/-- Model of `ContentPart`: three independent optional fields, no
exactly-one constraint in the source. -/
structure ContentPart where
  text : Option String := none
  inlineData : Option MediaChunk := none
  fileData : Option FileData := none
deriving DecidableEq

/-- The closed role set of `Turn.role`, `Literal["user", "model"]`. -/
inductive Role where
  | user
  | model
deriving DecidableEq

/-- Model of `Turn`; `role` defaults to `"user"`. -/
structure Turn where
  role : Role := Role.user
  parts : List ContentPart
deriving DecidableEq

/-- Model of `RealtimeInput`. -/
structure RealtimeInput where
  mediaChunks : List MediaChunk
deriving DecidableEq

/-- Model of `AudioInputMessage`. -/
structure AudioInputMessage where
  realtimeInput : RealtimeInput
deriving DecidableEq

/-- Model of `AudioInputMessage.from_raw_audio`: base64-encode the raw
bytes and wrap them in a single `MediaChunk` whose mime type carries the
sample rate, as in the Python classmethod. -/
def AudioInputMessage.from_raw_audio (raw_audio : List Nat) (sample_rate : Int) :
    AudioInputMessage :=
  ⟨⟨[⟨"audio/pcm;rate=" ++ toString sample_rate, b64encode raw_audio⟩]⟩⟩

/-- Model of `SetupComplete`, an empty pydantic model. -/
structure SetupComplete where
deriving DecidableEq

/-- Model of `InlineData`. -/
structure InlineData where
  mimeType : String
  data : String
deriving DecidableEq

/-- Model of the server-side `Part`: union-by-presence over
`inlineData`/`text`. -/
structure Part where
  inlineData : Option InlineData := none
  text : Option String := none
deriving DecidableEq

/-- Model of `ModelTurn`. -/
structure ModelTurn where
  parts : List Part
deriving DecidableEq

/-- Model of `BidiGenerateContentTranscription`. -/
structure BidiGenerateContentTranscription where
  text : String
deriving DecidableEq

/-- Model of `SearchEntryPoint`. -/
structure SearchEntryPoint where
  renderedContent : Option String := none
deriving DecidableEq

/-- Model of `WebSource`. -/
structure WebSource where
  uri : Option String := none
  title : Option String := none
deriving DecidableEq

/-- Model of `GroundingChunk`. -/
structure GroundingChunk where
  web : Option WebSource := none
deriving DecidableEq

/-- Model of `GroundingSegment`. -/
structure GroundingSegment where
  startIndex : Option Int := none
  endIndex : Option Int := none
  text : Option String := none
deriving DecidableEq

/-- Model of `GroundingSupport`.  `confidenceScores` is a Python
`List[float]`; it is modelled at integer precision, the fragment the
claims exercise. -/
structure GroundingSupport where
  segment : Option GroundingSegment := none
  groundingChunkIndices : Option (List Int) := none
  confidenceScores : Option (List Int) := none
deriving DecidableEq

/-- Model of `GroundingMetadata`. -/
structure GroundingMetadata where
  searchEntryPoint : Option SearchEntryPoint := none
  groundingChunks : Option (List GroundingChunk) := none
  groundingSupports : Option (List GroundingSupport) := none
  webSearchQueries : Option (List String) := none
deriving DecidableEq

/-- Model of `ServerContent`. -/
structure ServerContent where
  modelTurn : Option ModelTurn := none
  interrupted : Option Bool := none
  turnComplete : Option Bool := none
  inputTranscription : Option BidiGenerateContentTranscription := none
  outputTranscription : Option BidiGenerateContentTranscription := none
  groundingMetadata : Option GroundingMetadata := none
deriving DecidableEq

/-- Model of `FunctionCall`; `args` is a free-form JSON object. -/
structure FunctionCall where
  id : String
  name : String
  args : List (String × Json)

/-- Model of `ToolCall`. -/
structure ToolCall where
  functionCalls : List FunctionCall

/-- Model of the `Modality` enum. -/
inductive Modality where
  | unspecified
  | text
  | image
  | audio
  | video
deriving DecidableEq

/-- Model of `ModalityTokenCount`. -/
structure ModalityTokenCount where
  modality : Modality
  tokenCount : Int
deriving DecidableEq

/-- Model of `UsageMetadata`. -/
structure UsageMetadata where
  promptTokenCount : Option Int := none
  cachedContentTokenCount : Option Int := none
  responseTokenCount : Option Int := none
  toolUsePromptTokenCount : Option Int := none
  thoughtsTokenCount : Option Int := none
  totalTokenCount : Option Int := none
  promptTokensDetails : Option (List ModalityTokenCount) := none
  cacheTokensDetails : Option (List ModalityTokenCount) := none
  responseTokensDetails : Option (List ModalityTokenCount) := none
  toolUsePromptTokensDetails : Option (List ModalityTokenCount) := none
deriving DecidableEq

/-- Model of `ServerEvent`: union-by-presence over the four optional
fields. -/
structure ServerEvent where
  setupComplete : Option SetupComplete := none
  serverContent : Option ServerContent := none
  toolCall : Option ToolCall := none
  usageMetadata : Option UsageMetadata := none

/-- Model of `ContextWindowCompressionConfig`; `sliding_window` is
`Optional[bool]` with default `True`. -/
structure ContextWindowCompressionConfig where
  sliding_window : Option Bool := some true
  trigger_tokens : Option Int := none
deriving DecidableEq

/-! ### Validators

Each `vXxx : Json → Option Xxx` mirrors `Xxx.model_validate` on a parsed
JSON tree: the input must be an object; required fields must be present,
non-null and well-shaped; `Optional` fields decode absence and JSON null to
`none`; keys not named by the model are ignored. -/

/-- A string-typed field. -/
def jStr : Json → Option String
  | Json.str s => some s
  | _ => none

/-- An integer-typed field. -/
def jInt : Json → Option Int
  | Json.num n => some n
  | _ => none

/-- A boolean-typed field. -/
def jBool : Json → Option Bool
  | Json.bool b => some b
  | _ => none

/-- A list-typed field: every element must validate. -/
def jList (f : Json → Option α) : Json → Option (List α)
  | Json.arr xs => xs.mapM f
  | _ => none

/-- The field bindings of an object, rejecting any other shape. -/
def jObjFields : Json → Option (List (String × Json))
  | Json.obj fs => some fs
  | _ => none

/-- A required field: absence is a validation failure, and so is JSON null
(the field's type is not `Optional`). -/
def reqField (fs : List (String × Json)) (k : String) (f : Json → Option α) :
    Option α :=
  match Json.getField fs k with
  | none => none
  | some j => f j

/-- An `Optional[...] = None` field: absence and JSON null decode to `none`,
any other value must validate. -/
def optField (fs : List (String × Json)) (k : String) (f : Json → Option α) :
    Option (Option α) :=
  match Json.getField fs k with
  | none => some none
  | some Json.null => some none
  | some j => (f j).map some

/-- An `Optional[...]` field with a non-`None` default: absence yields the
default, JSON null yields `none`, any other value must validate. -/
def optFieldD (fs : List (String × Json)) (k : String) (f : Json → Option α)
    (dflt : Option α) : Option (Option α) :=
  match Json.getField fs k with
  | none => some dflt
  | some Json.null => some none
  | some j => (f j).map some

/-- Validator for `MediaChunk`. -/
def vMediaChunk (j : Json) : Option MediaChunk := do
  let fs ← jObjFields j
  let m ← reqField fs "mimeType" jStr
  let d ← reqField fs "data" jStr
  some ⟨m, d⟩

/-- Validator for `FileData`. -/
def vFileData (j : Json) : Option FileData := do
  let fs ← jObjFields j
  let m ← reqField fs "mimeType" jStr
  let u ← reqField fs "fileUri" jStr
  some ⟨m, u⟩

/-- Validator for `ContentPart`: all three fields optional and
independent. -/
def vContentPart (j : Json) : Option ContentPart := do
  let fs ← jObjFields j
  let t ← optField fs "text" jStr
  let i ← optField fs "inlineData" vMediaChunk
  let f ← optField fs "fileData" vFileData
  some ⟨t, i, f⟩

/-- Validator for the role literal `Literal["user", "model"]`: only the two
exact strings are accepted. -/
def vRole (j : Json) : Option Role :=
  match j with
  | Json.str s =>
    if s = "user" then some Role.user
    else if s = "model" then some Role.model
    else none
  | _ => none

/-- Validator for `Turn`: a missing `role` falls back to the declared
default `"user"`; a present `role` must be one of the two literals (JSON
null included is rejected, since the annotation is not `Optional`). -/
def vTurn (j : Json) : Option Turn := do
  let fs ← jObjFields j
  let role ←
    match Json.getField fs "role" with
    | none => some Role.user
    | some rj => vRole rj
  let parts ← reqField fs "parts" (jList vContentPart)
  some ⟨role, parts⟩

/-- Validator for `SetupComplete`: any object validates (unknown keys are
ignored), anything else fails. -/
def vSetupComplete (j : Json) : Option SetupComplete := do
  let _ ← jObjFields j
  some ⟨⟩

/-- Validator for `InlineData`. -/
def vInlineData (j : Json) : Option InlineData := do
  let fs ← jObjFields j
  let m ← reqField fs "mimeType" jStr
  let d ← reqField fs "data" jStr
  some ⟨m, d⟩

/-- Validator for the server-side `Part`. -/
def vPart (j : Json) : Option Part := do
  let fs ← jObjFields j
  let i ← optField fs "inlineData" vInlineData
  let t ← optField fs "text" jStr
  some ⟨i, t⟩

/-- Validator for `ModelTurn`. -/
def vModelTurn (j : Json) : Option ModelTurn := do
  let fs ← jObjFields j
  let ps ← reqField fs "parts" (jList vPart)
  some ⟨ps⟩

/-- Validator for `BidiGenerateContentTranscription`. -/
def vTranscription (j : Json) : Option BidiGenerateContentTranscription := do
  let fs ← jObjFields j
  let t ← reqField fs "text" jStr
  some ⟨t⟩

/-- Validator for `SearchEntryPoint`. -/
def vSearchEntryPoint (j : Json) : Option SearchEntryPoint := do
  let fs ← jObjFields j
  let r ← optField fs "renderedContent" jStr
  some ⟨r⟩

/-- Validator for `WebSource`. -/
def vWebSource (j : Json) : Option WebSource := do
  let fs ← jObjFields j
  let u ← optField fs "uri" jStr
  let t ← optField fs "title" jStr
  some ⟨u, t⟩

/-- Validator for `GroundingChunk`. -/
def vGroundingChunk (j : Json) : Option GroundingChunk := do
  let fs ← jObjFields j
  let w ← optField fs "web" vWebSource
  some ⟨w⟩

/-- Validator for `GroundingSegment`. -/
def vGroundingSegment (j : Json) : Option GroundingSegment := do
  let fs ← jObjFields j
  let s ← optField fs "startIndex" jInt
  let e ← optField fs "endIndex" jInt
  let t ← optField fs "text" jStr
  some ⟨s, e, t⟩

/-- Validator for `GroundingSupport`. -/
def vGroundingSupport (j : Json) : Option GroundingSupport := do
  let fs ← jObjFields j
  let s ← optField fs "segment" vGroundingSegment
  let i ← optField fs "groundingChunkIndices" (jList jInt)
  let c ← optField fs "confidenceScores" (jList jInt)
  some ⟨s, i, c⟩

/-- Validator for `GroundingMetadata`. -/
def vGroundingMetadata (j : Json) : Option GroundingMetadata := do
  let fs ← jObjFields j
  let s ← optField fs "searchEntryPoint" vSearchEntryPoint
  let c ← optField fs "groundingChunks" (jList vGroundingChunk)
  let g ← optField fs "groundingSupports" (jList vGroundingSupport)
  let w ← optField fs "webSearchQueries" (jList jStr)
  some ⟨s, c, g, w⟩

/-- Validator for `ServerContent`. -/
def vServerContent (j : Json) : Option ServerContent := do
  let fs ← jObjFields j
  let m ← optField fs "modelTurn" vModelTurn
  let i ← optField fs "interrupted" jBool
  let t ← optField fs "turnComplete" jBool
  let it ← optField fs "inputTranscription" vTranscription
  let ot ← optField fs "outputTranscription" vTranscription
  let g ← optField fs "groundingMetadata" vGroundingMetadata
  some ⟨m, i, t, it, ot, g⟩

/-- Validator for `FunctionCall`. -/
def vFunctionCall (j : Json) : Option FunctionCall := do
  let fs ← jObjFields j
  let i ← reqField fs "id" jStr
  let n ← reqField fs "name" jStr
  let a ← reqField fs "args" jObjFields
  some ⟨i, n, a⟩

/-- Validator for `ToolCall`. -/
def vToolCall (j : Json) : Option ToolCall := do
  let fs ← jObjFields j
  let c ← reqField fs "functionCalls" (jList vFunctionCall)
  some ⟨c⟩

/-- Validator for the `Modality` enum: only the five exact wire strings are
accepted. -/
def vModality (j : Json) : Option Modality :=
  match j with
  | Json.str s =>
    if s = "MODALITY_UNSPECIFIED" then some Modality.unspecified
    else if s = "TEXT" then some Modality.text
    else if s = "IMAGE" then some Modality.image
    else if s = "AUDIO" then some Modality.audio
    else if s = "VIDEO" then some Modality.video
    else none
  | _ => none

/-- Validator for `ModalityTokenCount`. -/
def vModalityTokenCount (j : Json) : Option ModalityTokenCount := do
  let fs ← jObjFields j
  let m ← reqField fs "modality" vModality
  let t ← reqField fs "tokenCount" jInt
  some ⟨m, t⟩

/-- Validator for `UsageMetadata`. -/
def vUsageMetadata (j : Json) : Option UsageMetadata := do
  let fs ← jObjFields j
  let p ← optField fs "promptTokenCount" jInt
  let cc ← optField fs "cachedContentTokenCount" jInt
  let r ← optField fs "responseTokenCount" jInt
  let tu ← optField fs "toolUsePromptTokenCount" jInt
  let th ← optField fs "thoughtsTokenCount" jInt
  let tt ← optField fs "totalTokenCount" jInt
  let pd ← optField fs "promptTokensDetails" (jList vModalityTokenCount)
  let cd ← optField fs "cacheTokensDetails" (jList vModalityTokenCount)
  let rd ← optField fs "responseTokensDetails" (jList vModalityTokenCount)
  let td ← optField fs "toolUsePromptTokensDetails" (jList vModalityTokenCount)
  some ⟨p, cc, r, tu, th, tt, pd, cd, rd, td⟩

/-- Validator for `ServerEvent`, the model validated by
`parse_server_event`. -/
def vServerEvent (j : Json) : Option ServerEvent := do
  let fs ← jObjFields j
  let sc ← optField fs "setupComplete" vSetupComplete
  let sv ← optField fs "serverContent" vServerContent
  let tc ← optField fs "toolCall" vToolCall
  let um ← optField fs "usageMetadata" vUsageMetadata
  some ⟨sc, sv, tc, um⟩

/-- Validator for `ContextWindowCompressionConfig`.  The pydantic field
names are the snake_case attribute names (no aliases are declared). -/
def vContextWindowCompressionConfig (j : Json) :
    Option ContextWindowCompressionConfig := do
  let fs ← jObjFields j
  let sw ← optFieldD fs "sliding_window" jBool (some true)
  let tt ← optField fs "trigger_tokens" jInt
  some ⟨sw, tt⟩

/-! ### The decode entry point -/

/-- Model of `parse_server_event`: `json.loads` followed by
`ServerEvent.model_validate`; any failure in either step is caught and
turned into the `none` ("no event") result. -/
def parse_server_event (message_str : String) : Option ServerEvent :=
  match parseJson message_str with
  | none => none
  | some j => vServerEvent j

/-- Model of the diagnostic excerpt built on the failure path of
`parse_server_event` (line 298 of the source): the raw message capped at
200 characters, with an ellipsis marker when it was truncated. -/
def truncatedMessage (message_str : String) : String :=
  if message_str.length > 200 then message_str.take 200 ++ "..." else message_str

/-! ### Helper lemmas -/

/-- Decoding inverts the six-bit digit encoding. -/
theorem b64DigitVal_b64Digit : ∀ n < 64, b64DigitVal (b64Digit n) = some n := by decide

/-- No six-bit group encodes to the padding character. -/
theorem b64Digit_ne_pad : ∀ n < 64, b64Digit n ≠ '=' := by decide

/-- Base64 decoding inverts encoding on byte lists. -/
theorem b64decodeList_encodeList :
    ∀ l : List Nat, (∀ x ∈ l, x < 256) → b64decodeList (b64encodeList l) = some l
  | [], _ => rfl
  | [a], h => by
    have ha : a < 256 := h a (by simp)
    have h1 := b64DigitVal_b64Digit (a / 4) (by omega)
    have h2 := b64DigitVal_b64Digit (a % 4 * 16) (by omega)
    have e1 : a / 4 * 4 + a % 4 * 16 / 16 = a := by omega
    simp only [b64encodeList, b64decodeList, h1, h2, if_pos rfl, and_self, e1,
      reduceIte]
  | [a, b], h => by
    have ha : a < 256 := h a (by simp)
    have hb : b < 256 := h b (by simp)
    have h1 := b64DigitVal_b64Digit (a / 4) (by omega)
    have h2 := b64DigitVal_b64Digit (a % 4 * 16 + b / 16) (by omega)
    have h3 := b64DigitVal_b64Digit (b % 16 * 4) (by omega)
    have n3 := b64Digit_ne_pad (b % 16 * 4) (by omega)
    have e1 : a / 4 * 4 + (a % 4 * 16 + b / 16) / 16 = a := by omega
    have e2 : (a % 4 * 16 + b / 16) % 16 * 16 + b % 16 * 4 / 4 = b := by omega
    simp only [b64encodeList, b64decodeList, h1, h2, h3, if_neg n3, if_pos rfl,
      e1, e2, reduceIte]
  | a :: b :: c :: rest, h => by
    have ha : a < 256 := h a (by simp)
    have hb : b < 256 := h b (by simp)
    have hc : c < 256 := h c (by simp)
    have h1 := b64DigitVal_b64Digit (a / 4) (by omega)
    have h2 := b64DigitVal_b64Digit (a % 4 * 16 + b / 16) (by omega)
    have h3 := b64DigitVal_b64Digit (b % 16 * 4 + c / 64) (by omega)
    have h4 := b64DigitVal_b64Digit (c % 64) (by omega)
    have n3 := b64Digit_ne_pad (b % 16 * 4 + c / 64) (by omega)
    have n4 := b64Digit_ne_pad (c % 64) (by omega)
    have ih := b64decodeList_encodeList rest (fun x hx => h x (by simp [hx]))
    have e1 : a / 4 * 4 + (a % 4 * 16 + b / 16) / 16 = a := by omega
    have e2 : (a % 4 * 16 + b / 16) % 16 * 16 + (b % 16 * 4 + c / 64) / 4 = b := by omega
    have e3 : (b % 16 * 4 + c / 64) % 4 * 64 + c % 64 = c := by omega
    simp only [b64encodeList, b64decodeList, h1, h2, h3, h4, if_neg n3, if_neg n4,
      ih, e1, e2, e3]

/-- Appending one binding changes lookups only at that binding's key. -/
theorem getField_append (fs : List (String × Json)) (k k' : String) (v : Json) :
    Json.getField (fs ++ [(k, v)]) k' =
      if k = k' then some v else Json.getField fs k' := by
  simp only [Json.getField, List.foldl_append, List.foldl_cons, List.foldl_nil]

/-- `optField` depends on the bindings only through the lookup at its key. -/
theorem optField_congr {α : Type} (fs fs' : List (String × Json)) (k : String)
    (f : Json → Option α) (h : Json.getField fs k = Json.getField fs' k) :
    optField fs k f = optField fs' k f := by
  unfold optField
  rw [h]

/-- An absent optional field validates to `none`. -/
theorem optField_absent {α : Type} (fs : List (String × Json)) (k : String)
    (f : Json → Option α) (h : Json.getField fs k = none) :
    optField fs k f = some none := by
  unfold optField
  rw [h]

/-- A present, non-null optional field validates to the field validator's
result. -/
theorem optField_present_eq {α : Type} (fs : List (String × Json)) (k : String)
    (f : Json → Option α) (j : Json) (x : Option α)
    (hg : Json.getField fs k = some j) (hn : j ≠ Json.null)
    (h : optField fs k f = some x) : x = f j := by
  unfold optField at h
  rw [hg] at h
  rcases j with _ | b | n | s | xs | gs
  · exact absurd rfl hn
  all_goals
    rcases hf : f _ with _ | y
    · simp [hf] at h
    · simp [hf] at h
      simp [h]

/-- A successful `ServerEvent` validation determines each of the four
fields through `optField` at its own key. -/
theorem vServerEvent_fields (fs : List (String × Json)) (e : ServerEvent)
    (hv : vServerEvent (Json.obj fs) = some e) :
    optField fs "setupComplete" vSetupComplete = some e.setupComplete ∧
    optField fs "serverContent" vServerContent = some e.serverContent ∧
    optField fs "toolCall" vToolCall = some e.toolCall ∧
    optField fs "usageMetadata" vUsageMetadata = some e.usageMetadata := by
  rcases h1 : optField fs "setupComplete" vSetupComplete with _ | sc <;>
    rcases h2 : optField fs "serverContent" vServerContent with _ | sv <;>
      rcases h3 : optField fs "toolCall" vToolCall with _ | tc <;>
        rcases h4 : optField fs "usageMetadata" vUsageMetadata with _ | um <;>
          simp [vServerEvent, jObjFields, h1, h2, h3, h4] at hv
  subst hv
  simp

/-! ### The claims -/

/-- C1: for every input string, `parse_server_event` terminates with either
an event or the "no event" result `none`; in particular non-JSON text and
JSON that is not an object both yield `none` rather than a fault. -/
theorem c1_parse_server_event_total :
    (∀ s : String, (∃ e, parse_server_event s = some e) ∨ parse_server_event s = none) ∧
    parse_server_event "\x7bnot json" = none ∧
    parse_server_event "[1, 2]" = none := by
  refine ⟨fun s => ?_, rfl, rfl⟩
  rcases h : parse_server_event s with _ | e
  · exact Or.inr rfl
  · exact Or.inl ⟨e, rfl⟩

/-- C2: a wire payload that validates as a `ServerEvent` maps every absent
top-level field to `none` (never a zero-value default) and every present
non-null field to its validated value; in particular the input
`setupComplete: empty-object` yields an event with `setupComplete` present
and the other three fields absent. -/
theorem c2_present_mapped_absent_none :
    (∀ (fs : List (String × Json)) (e : ServerEvent),
        vServerEvent (Json.obj fs) = some e →
        (Json.getField fs "setupComplete" = none → e.setupComplete = none) ∧
        (Json.getField fs "serverContent" = none → e.serverContent = none) ∧
        (Json.getField fs "toolCall" = none → e.toolCall = none) ∧
        (Json.getField fs "usageMetadata" = none → e.usageMetadata = none) ∧
        (∀ j, Json.getField fs "setupComplete" = some j → j ≠ Json.null →
          e.setupComplete = vSetupComplete j) ∧
        (∀ j, Json.getField fs "serverContent" = some j → j ≠ Json.null →
          e.serverContent = vServerContent j) ∧
        (∀ j, Json.getField fs "toolCall" = some j → j ≠ Json.null →
          e.toolCall = vToolCall j) ∧
        (∀ j, Json.getField fs "usageMetadata" = some j → j ≠ Json.null →
          e.usageMetadata = vUsageMetadata j)) ∧
    parse_server_event "\x7b\"setupComplete\": \x7b\x7d\x7d" =
      some ⟨some ⟨⟩, none, none, none⟩ := by
  refine ⟨fun fs e hv => ?_, rfl⟩
  obtain ⟨h1, h2, h3, h4⟩ := vServerEvent_fields fs e hv
  refine ⟨fun hg => ?_, fun hg => ?_, fun hg => ?_, fun hg => ?_,
    fun j hg hn => ?_, fun j hg hn => ?_, fun j hg hn => ?_, fun j hg hn => ?_⟩
  · exact Option.some.inj ((h1.symm.trans (optField_absent fs _ _ hg)))
  · exact Option.some.inj ((h2.symm.trans (optField_absent fs _ _ hg)))
  · exact Option.some.inj ((h3.symm.trans (optField_absent fs _ _ hg)))
  · exact Option.some.inj ((h4.symm.trans (optField_absent fs _ _ hg)))
  · exact optField_present_eq fs _ _ j _ hg hn h1
  · exact optField_present_eq fs _ _ j _ hg hn h2
  · exact optField_present_eq fs _ _ j _ hg hn h3
  · exact optField_present_eq fs _ _ j _ hg hn h4

/-- C2 witness: the empty object validates with all four fields absent, and
the theorem instantiated there yields `setupComplete = none`. -/
theorem c2_present_mapped_absent_none_witness :
    vServerEvent (Json.obj []) = some ⟨none, none, none, none⟩ ∧
    (⟨none, none, none, none⟩ : ServerEvent).setupComplete = none :=
  ⟨rfl, (c2_present_mapped_absent_none.1 [] ⟨none, none, none, none⟩ rfl).1 rfl⟩

/-- C3: `from_raw_audio` produces a single media chunk whose data
base64-decodes back to the raw bytes and whose mime type is
`audio/pcm;rate=` followed by the decimal sample rate. -/
theorem c3_from_raw_audio_roundtrip (raw_audio : List Nat) (sample_rate : Int)
    (hb : ∀ x ∈ raw_audio, x < 256) :
    ∃ chunk : MediaChunk,
      (AudioInputMessage.from_raw_audio raw_audio sample_rate).realtimeInput.mediaChunks =
        [chunk] ∧
      b64decode chunk.data = some raw_audio ∧
      chunk.mimeType = "audio/pcm;rate=" ++ toString sample_rate :=
  ⟨⟨"audio/pcm;rate=" ++ toString sample_rate, b64encode raw_audio⟩, rfl,
    b64decodeList_encodeList raw_audio hb, rfl⟩

/-- C3 witness: the round trip at concrete bytes and rate 16000. -/
theorem c3_from_raw_audio_roundtrip_witness :
    ∃ chunk : MediaChunk,
      (AudioInputMessage.from_raw_audio [0, 255, 16] 16000).realtimeInput.mediaChunks =
        [chunk] ∧
      b64decode chunk.data = some [0, 255, 16] ∧
      chunk.mimeType = "audio/pcm;rate=" ++ toString (16000 : Int) :=
  c3_from_raw_audio_roundtrip [0, 255, 16] 16000 (by decide)

/-- C4: on the failure path the logged excerpt is the full raw text when it
is at most 200 characters, and exactly the first 200 characters followed by
the ellipsis marker when longer. -/
theorem c4_log_truncation (s : String) (_hfail : parse_server_event s = none) :
    (200 < s.length → truncatedMessage s = s.take 200 ++ "...") ∧
    (s.length ≤ 200 → truncatedMessage s = s) := by
  refine ⟨fun h => ?_, fun h => ?_⟩
  · rw [truncatedMessage, if_pos h]
  · rw [truncatedMessage, if_neg (by omega)]

set_option maxRecDepth 8192 in
/-- C4 witness: a 201-character non-JSON message fails to parse and its
excerpt is the 200-character prefix plus the ellipsis marker. -/
theorem c4_log_truncation_witness :
    parse_server_event (String.mk (List.replicate 201 'a')) = none ∧
    truncatedMessage (String.mk (List.replicate 201 'a')) =
      (String.mk (List.replicate 201 'a')).take 200 ++ "..." :=
  ⟨rfl, (c4_log_truncation (String.mk (List.replicate 201 'a')) rfl).1 (by decide)⟩

/-- C5: enum-typed wire fields only accept their exact enumerated strings:
a `Turn` whose role is any string other than `user`/`model` is rejected
(e.g. `system`), and an unrecognized `Modality` string is rejected. -/
theorem c5_enum_rejects_unknown :
    (∀ (fs : List (String × Json)) (s : String),
        Json.getField fs "role" = some (Json.str s) → s ≠ "user" → s ≠ "model" →
        vTurn (Json.obj fs) = none) ∧
    (∀ s : String, s ≠ "MODALITY_UNSPECIFIED" → s ≠ "TEXT" → s ≠ "IMAGE" →
        s ≠ "AUDIO" → s ≠ "VIDEO" → vModality (Json.str s) = none) ∧
    vTurn (Json.obj [("role", Json.str "system"), ("parts", Json.arr [])]) = none := by
  refine ⟨fun fs s hg hu hm => ?_, fun s h1 h2 h3 h4 h5 => ?_, rfl⟩
  · simp [vTurn, jObjFields, hg, vRole, hu, hm]
  · simp [vModality, h1, h2, h3, h4, h5]

/-- C5 witness: the theorem at the concrete role `system` and at a concrete
unknown modality string. -/
theorem c5_enum_rejects_unknown_witness :
    vTurn (Json.obj [("role", Json.str "system"), ("parts", Json.arr [])]) = none ∧
    vModality (Json.str "MODALITY_TEXT") = none :=
  ⟨c5_enum_rejects_unknown.1 [("role", Json.str "system"), ("parts", Json.arr [])]
      "system" rfl (by decide) (by decide),
    c5_enum_rejects_unknown.2.1 "MODALITY_TEXT" (by decide) (by decide) (by decide)
      (by decide) (by decide)⟩

/-- C6: an unmodeled field added to a wire object never changes the outcome
of `ServerEvent` validation; in particular a valid event with an extra
unknown key still parses. -/
theorem c6_unknown_fields_ignored :
    (∀ (fs : List (String × Json)) (k : String) (v : Json),
        k ≠ "setupComplete" → k ≠ "serverContent" → k ≠ "toolCall" →
        k ≠ "usageMetadata" →
        vServerEvent (Json.obj (fs ++ [(k, v)])) = vServerEvent (Json.obj fs)) ∧
    parse_server_event "\x7b\"setupComplete\": \x7b\x7d, \"zzz\": 1\x7d" =
      some ⟨some ⟨⟩, none, none, none⟩ := by
  refine ⟨fun fs k v h1 h2 h3 h4 => ?_, rfl⟩
  have g1 := optField_congr (fs ++ [(k, v)]) fs "setupComplete" vSetupComplete
    (by rw [getField_append, if_neg h1])
  have g2 := optField_congr (fs ++ [(k, v)]) fs "serverContent" vServerContent
    (by rw [getField_append, if_neg h2])
  have g3 := optField_congr (fs ++ [(k, v)]) fs "toolCall" vToolCall
    (by rw [getField_append, if_neg h3])
  have g4 := optField_congr (fs ++ [(k, v)]) fs "usageMetadata" vUsageMetadata
    (by rw [getField_append, if_neg h4])
  simp [vServerEvent, jObjFields, g1, g2, g3, g4]

/-- C6 witness: appending the unknown key `zzz` to a valid object leaves
validation unchanged. -/
theorem c6_unknown_fields_ignored_witness :
    vServerEvent (Json.obj ([("setupComplete", Json.obj [])] ++ [("zzz", Json.num 1)])) =
      vServerEvent (Json.obj [("setupComplete", Json.obj [])]) :=
  c6_unknown_fields_ignored.1 [("setupComplete", Json.obj [])] "zzz" (Json.num 1)
    (by decide) (by decide) (by decide) (by decide)

/-- C7 counterexample: decoding a `ContentPart` with zero of the three
fields present succeeds (with all three absent) instead of being rejected,
and decoding with two fields present succeeds with both mapped — refuting
the claimed exactly-one constraint in both directions. -/
theorem c7_exactly_one_counterexample :
    vContentPart (Json.obj []) = some ⟨none, none, none⟩ ∧
    vContentPart (Json.obj [("text", Json.str "a"),
        ("inlineData", Json.obj [("mimeType", Json.str "m"), ("data", Json.str "d")])]) =
      some ⟨some "a", some ⟨"m", "d"⟩, none⟩ :=
  ⟨rfl, rfl⟩

/-- C7 (amended): `ContentPart` is a union-by-presence with three
independent optional fields; construction and decoding accept zero, one, or
several of `text`, `inlineData`, `fileData` present, imposing no
exactly-one constraint. -/
theorem c7_union_by_presence :
    ({} : ContentPart) = ⟨none, none, none⟩ ∧
    vContentPart (Json.obj []) = some ⟨none, none, none⟩ ∧
    vContentPart (Json.obj [("text", Json.str "hi")]) = some ⟨some "hi", none, none⟩ ∧
    vContentPart (Json.obj [("text", Json.str "a"),
        ("inlineData", Json.obj [("mimeType", Json.str "m"), ("data", Json.str "d")]),
        ("fileData", Json.obj [("mimeType", Json.str "m2"), ("fileUri", Json.str "u")])]) =
      some ⟨some "a", some ⟨"m", "d"⟩, some ⟨"m2", "u"⟩⟩ :=
  ⟨rfl, rfl, rfl, rfl⟩

/-- C8: `parse_server_event` is deterministic — two invocations on the same
input yield structurally equal results. -/
theorem c8_parse_deterministic (s : String) (r1 r2 : Option ServerEvent)
    (h1 : parse_server_event s = r1) (h2 : parse_server_event s = r2) : r1 = r2 :=
  h1.symm.trans h2

/-- C8 witness: determinism at a concrete input. -/
theorem c8_parse_deterministic_witness :
    parse_server_event "\x7b\x7d" = parse_server_event "\x7b\x7d" :=
  c8_parse_deterministic "\x7b\x7d" _ _ rfl rfl

/-- C9: constructing or decoding a `ContextWindowCompressionConfig` without
`sliding_window` yields the default `true`, while an absent
`trigger_tokens` decodes to absent. -/
theorem c9_compression_defaults :
    ({} : ContextWindowCompressionConfig).sliding_window = some true ∧
    ({} : ContextWindowCompressionConfig).trigger_tokens = none ∧
    vContextWindowCompressionConfig (Json.obj []) = some ⟨some true, none⟩ ∧
    (∀ (fs : List (String × Json)) (c : ContextWindowCompressionConfig),
        vContextWindowCompressionConfig (Json.obj fs) = some c →
        (Json.getField fs "sliding_window" = none → c.sliding_window = some true) ∧
        (Json.getField fs "trigger_tokens" = none → c.trigger_tokens = none)) := by
  refine ⟨rfl, rfl, rfl, fun fs c hv => ?_⟩
  rcases h1 : optFieldD fs "sliding_window" jBool (some true) with _ | sw <;>
    rcases h2 : optField fs "trigger_tokens" jInt with _ | tt <;>
      simp [vContextWindowCompressionConfig, jObjFields, h1, h2] at hv
  subst hv
  refine ⟨fun hg => ?_, fun hg => ?_⟩
  · unfold optFieldD at h1
    rw [hg] at h1
    simp at h1
    simp [h1]
  · unfold optField at h2
    rw [hg] at h2
    simp at h2
    simp [h2]

/-- C9 witness: the theorem at the empty object. -/
theorem c9_compression_defaults_witness :
    vContextWindowCompressionConfig (Json.obj []) = some ⟨some true, none⟩ ∧
    (⟨some true, none⟩ : ContextWindowCompressionConfig).sliding_window = some true :=
  ⟨rfl, (c9_compression_defaults.2.2.2 [] ⟨some true, none⟩ rfl).1 rfl⟩

/-- C10: a `Turn` wire object with valid parts but no `role` field decodes
successfully with role `user` — absence of `role` silently defaults rather
than failing. -/
theorem c10_missing_role_defaults_user :
    vTurn (Json.obj [("parts", Json.arr [])]) = some ⟨Role.user, []⟩ ∧
    (∀ (fs : List (String × Json)) (t : Turn),
        Json.getField fs "role" = none → vTurn (Json.obj fs) = some t →
        t.role = Role.user) := by
  refine ⟨rfl, fun fs t hg hv => ?_⟩
  simp [vTurn, jObjFields, hg] at hv
  rcases hp : reqField fs "parts" (jList vContentPart) with _ | ps
  · rw [hp] at hv
    simp at hv
  · rw [hp] at hv
    simp at hv
    rw [← hv]

/-- C10 witness: the theorem at the concrete parts-only object. -/
theorem c10_missing_role_defaults_user_witness :
    vTurn (Json.obj [("parts", Json.arr [])]) = some ⟨Role.user, []⟩ ∧
    (⟨Role.user, []⟩ : Turn).role = Role.user :=
  ⟨rfl, c10_missing_role_defaults_user.2 [("parts", Json.arr [])] ⟨Role.user, []⟩ rfl rfl⟩

end GeminiLive
